import Mathlib

/-!
Verification of the movie-review platform backend.

The development embeds the two route sets of the repository:

* the in-memory Express server (`src/unnamed/part_000`): module-level
  `movies` / `reviews` arrays, handlers for listing movies, movie details
  with rating aggregation, review create / update / delete, and search;
* the Firestore-backed review router (`src/server/routes/reviews.js`):
  token-verified identity, document-store reviews, and per-review author
  enrichment.

JavaScript-specific behaviour that the handlers rely on is modelled
explicitly: truthiness of `0`, `""` and `undefined`; `NaN` propagation in
arithmetic on query parameters; `Array.prototype.slice` index clamping;
the in-place, aliasing behaviour of `Array.prototype.sort`; `parseInt`
truncation; and `String.prototype.trim`.  Numbers in request bodies are
modelled as rationals (`ℚ`), which is exact for every numeric literal the
handlers compare or store; `NaN`-valued request fields are outside the
modelled input domain.  Timestamps (`new Date()`) are abstract `Nat`
instants supplied to each handler as a `now` argument.
-/

/-- Numeric value of a JavaScript expression used as an array index or in
index arithmetic: either an exact rational-free integer, `NaN`, or an
infinity (infinities arise only from division by zero).  Arithmetic
propagates `NaN` exactly as JavaScript does. -/
inductive JsNum where
  | nan : JsNum
  | int (n : ℤ) : JsNum
  | posInf : JsNum
  | negInf : JsNum
deriving DecidableEq, Repr

namespace JsNum

/-- JavaScript `+` on numbers (`NaN` propagates, `Infinity + finite = Infinity`,
`Infinity + -Infinity = NaN`). -/
def add : JsNum → JsNum → JsNum
  | nan, _ => nan
  | _, nan => nan
  | int a, int b => int (a + b)
  | posInf, negInf => nan
  | negInf, posInf => nan
  | posInf, _ => posInf
  | _, posInf => posInf
  | negInf, _ => negInf
  | _, negInf => negInf

/-- JavaScript `-` on numbers. -/
def sub : JsNum → JsNum → JsNum
  | nan, _ => nan
  | _, nan => nan
  | int a, int b => int (a - b)
  | posInf, posInf => nan
  | negInf, negInf => nan
  | posInf, _ => posInf
  | _, posInf => negInf
  | negInf, _ => negInf
  | _, negInf => posInf

/-- JavaScript `*` on numbers (`0 * Infinity = NaN`). -/
def mul : JsNum → JsNum → JsNum
  | nan, _ => nan
  | _, nan => nan
  | int a, int b => int (a * b)
  | posInf, int n => if n = 0 then nan else if 0 < n then posInf else negInf
  | int n, posInf => if n = 0 then nan else if 0 < n then posInf else negInf
  | negInf, int n => if n = 0 then nan else if 0 < n then negInf else posInf
  | int n, negInf => if n = 0 then nan else if 0 < n then negInf else posInf
  | posInf, posInf => posInf
  | negInf, negInf => posInf
  | posInf, negInf => negInf
  | negInf, posInf => negInf

/-- JavaScript `<` on numbers: any comparison involving `NaN` is `false`. -/
def ltB : JsNum → JsNum → Bool
  | nan, _ => false
  | _, nan => false
  | int a, int b => decide (a < b)
  | posInf, _ => false
  | _, posInf => true
  | negInf, negInf => false
  | negInf, _ => true
  | _, negInf => false

/-- JavaScript `>` on numbers: any comparison involving `NaN` is `false`. -/
def gtB (a b : JsNum) : Bool := ltB b a

end JsNum

/-- An HTTP query-string parameter as the pagination code consumes it:
absent (`undefined` after destructuring, so the declared default applies),
a decimal integer string such as `"3"`, or a string with no leading
numeric part (for which both number coercion and `parseInt` yield `NaN`).
Fractional numeric strings are outside the modelled input domain. -/
inductive QParam where
  | missing : QParam
  | num (n : ℤ) : QParam
  | nonNumeric : QParam
deriving DecidableEq, Repr

/-- Coerce a query parameter to a JavaScript number, substituting the
destructuring default `d` when the parameter is absent.  On this
parameter domain JavaScript's implicit number coercion (used by `-`, `*`,
`/`) and `parseInt` agree, so a single coercion function serves both. -/
def QParam.toNum (d : ℤ) : QParam → JsNum
  | .missing => .int d
  | .num n => .int n
  | .nonNumeric => .nan

/-- Resolve one bound of `Array.prototype.slice` against a length:
`NaN` becomes `0`, negative values count from the end clamped at `0`,
positive values are clamped at the length. -/
def jsSliceIndex (len : ℕ) : JsNum → ℕ
  | .nan => 0
  | .negInf => 0
  | .posInf => len
  | .int n => if n < 0 then ((len : ℤ) + n).toNat else min n.toNat len

/-- `Array.prototype.slice(start, end)`: the elements from the resolved
start bound (inclusive) to the resolved end bound (exclusive). -/
def jsSlice (l : List α) (s e : JsNum) : List α :=
  (l.take (jsSliceIndex l.length e)).drop (jsSliceIndex l.length s)

/-- `Math.ceil(len / limit)` as the pagination block computes total pages:
division by zero yields an infinity (or `NaN` for `0 / 0`), otherwise the
exact rational quotient is ceiled. -/
def jsCeilDiv (len : ℕ) : JsNum → JsNum
  | .nan => .nan
  | .posInf => .int 0
  | .negInf => .int 0
  | .int d =>
    if d = 0 then (if len = 0 then .nan else .posInf)
    else .int ⌈(len : ℚ) / (d : ℚ)⌉

/-- JavaScript `parseInt` applied to a number already known to be integral
or `NaN` (the only numbers the handlers feed it), i.e. truncation toward
zero of a rational. -/
def jsParseInt (q : ℚ) : ℤ := if 0 ≤ q then ⌊q⌋ else ⌈q⌉

/-- JavaScript `String.prototype.trim`: strip whitespace from both ends. -/
def jsTrim (s : String) : String :=
  ⟨((s.data.dropWhile Char.isWhitespace).reverse.dropWhile Char.isWhitespace).reverse⟩

/-- Case conversion used by the search filters (`String.prototype.toLowerCase`). -/
def jsToLower (s : String) : String := ⟨s.data.map Char.toLower⟩

/-- Prefix test on character lists (helper for the substring test). -/
def charPrefix : List Char → List Char → Bool
  | [], _ => true
  | _ :: _, [] => false
  | a :: as, b :: bs => a == b && charPrefix as bs

/-- Infix test on character lists (helper for the substring test). -/
def charInfix (pat : List Char) : List Char → Bool
  | [] => charPrefix pat []
  | c :: rest => charPrefix pat (c :: rest) || charInfix pat rest

/-- `a.includes(b)`: substring containment. -/
def jsIncludes (s pat : String) : Bool := charInfix pat.data s.data

/-- Lexicographic comparison of character lists by code point, modelling
`a.localeCompare(b) <= 0` on the ASCII, uniform-case strings the catalog
contains (locale collation coincides with code-point order there). -/
def charListLe : List Char → List Char → Bool
  | [], _ => true
  | _ :: _, [] => false
  | a :: as, b :: bs =>
    if a.toNat < b.toNat then true
    else if b.toNat < a.toNat then false
    else charListLe as bs

/-- String comparison for the default movie sort (`localeCompare`). -/
def jsStrLe (a b : String) : Bool := charListLe a.data b.data

/-- Stable comparison sort modelling `Array.prototype.sort(cmp)`:
`le a b` renders `cmp(a, b) <= 0`.  ECMAScript requires the sort to be
stable, so any stable sorting algorithm is observationally the code's;
insertion placing each element after its ties is used here. -/
def jsInsert (le : α → α → Bool) (x : α) : List α → List α
  | [] => [x]
  | y :: ys => if le y x then y :: jsInsert le x ys else x :: y :: ys

/-- See `jsInsert`: left-to-right insertion keeps tied elements in source
order, matching the stability contract of `Array.prototype.sort`. -/
def jsStableSort (le : α → α → Bool) (l : List α) : List α :=
  l.foldl (fun acc x => jsInsert le x acc) []

/-- A movie record of the in-memory catalog (`src/unnamed/part_000`). -/
structure Movie where
  id : ℕ
  title : String
  year : ℕ
  rating : ℚ
  genre : String
  director : String
  duration : ℕ
  poster : String
  description : String
deriving DecidableEq, Repr

/-- A review record of the in-memory store (`src/unnamed/part_000`).
`rating` is an integer because the create handler stores
`parseInt(rating)`; timestamps are abstract instants. -/
structure Review where
  id : ℕ
  movieId : ℕ
  userId : String
  userName : String
  rating : ℤ
  text : String
  createdAt : ℕ
  updatedAt : ℕ
deriving DecidableEq, Repr

/-- The error taxonomy the handlers surface, keyed by the distinct error
responses of the source (`400` validation, `400` duplicate-review message,
`404`, `403`). -/
inductive ApiErr where
  | invalidArgument : ApiErr
  | duplicateReview : ApiErr
  | notFound : ApiErr
  | forbidden : ApiErr
deriving DecidableEq, Repr

instance {ε α : Type} [DecidableEq ε] [DecidableEq α] :
    DecidableEq (Except ε α) := fun a b =>
  match a, b with
  | .ok x, .ok y =>
    if h : x = y then isTrue (congrArg Except.ok h)
    else isFalse (fun hc => h (Except.ok.inj hc))
  | .error x, .error y =>
    if h : x = y then isTrue (congrArg Except.error h)
    else isFalse (fun hc => h (Except.error.inj hc))
  | .ok _, .error _ => isFalse (fun hc => Except.noConfusion hc)
  | .error _, .ok _ => isFalse (fun hc => Except.noConfusion hc)

/-- The module-level `movies` sample catalog of `src/unnamed/part_000`
(poster URLs elided to empty strings; they take no part in any handler
logic). -/
def sampleMovies : List Movie :=
  [ { id := 1, title := "The Shawshank Redemption", year := 1994,
      rating := ⟨93, 10, by decide, by decide⟩, genre := "Drama",
      director := "Frank Darabont", duration := 142, poster := "",
      description := "Two imprisoned men bond over a number of years, finding solace and eventual redemption through acts of common decency." },
    { id := 2, title := "The Godfather", year := 1972,
      rating := ⟨46, 5, by decide, by decide⟩, genre := "Crime",
      director := "Francis Ford Coppola", duration := 175, poster := "",
      description := "The aging patriarch of an organized crime dynasty transfers control of his clandestine empire to his reluctant son." },
    { id := 3, title := "The Dark Knight", year := 2008,
      rating := ⟨9, 1, by decide, by decide⟩, genre := "Action",
      director := "Christopher Nolan", duration := 152, poster := "",
      description := "When the menace known as the Joker wreaks havoc and chaos on the people of Gotham, Batman must accept one of the greatest psychological and physical tests of his ability to fight injustice." },
    { id := 4, title := "Pulp Fiction", year := 1994,
      rating := ⟨89, 10, by decide, by decide⟩, genre := "Crime",
      director := "Quentin Tarantino", duration := 154, poster := "",
      description := "The lives of two mob hitmen, a boxer, a gangster and his wife, and a pair of diner bandits intertwine in four tales of violence and redemption." },
    { id := 5, title := "Forrest Gump", year := 1994,
      rating := ⟨44, 5, by decide, by decide⟩, genre := "Drama",
      director := "Robert Zemeckis", duration := 142, poster := "",
      description := "The presidencies of Kennedy and Johnson, the Vietnam War, the Watergate scandal and other historical events unfold from the perspective of an Alabama man with an IQ of 75." } ]

/-- The module-level `reviews` sample data of `src/unnamed/part_000`
(timestamps encoded as `yyyymmdd` instants, preserving their order). -/
def sampleReviews : List Review :=
  [ { id := 1, movieId := 1, userId := "user123", userName := "John Doe",
      rating := 5,
      text := "Amazing movie! A true masterpiece that stands the test of time. The story of hope and friendship is incredibly moving.",
      createdAt := 20240115, updatedAt := 20240115 },
    { id := 2, movieId := 1, userId := "user456", userName := "Jane Smith",
      rating := 4,
      text := "Great story and excellent acting. Morgan Freeman's narration is perfect. A bit long but worth every minute.",
      createdAt := 20240120, updatedAt := 20240120 },
    { id := 3, movieId := 2, userId := "user789", userName := "Mike Johnson",
      rating := 5,
      text := "The best crime drama ever made. Marlon Brando's performance is legendary. Every scene is perfectly crafted.",
      createdAt := 20240201, updatedAt := 20240201 } ]

/-- The response shape the pagination block of `src/unnamed/part_000`
produces (`GET /api/movies`, lines 218–230; the identical block recurs in
the review-listing and search handlers). -/
structure Paginated (α : Type) where
  items : List α
  currentPage : JsNum
  totalPages : JsNum
  totalCount : ℕ
  hasNextPage : Bool
  hasPrevPage : Bool
deriving DecidableEq, Repr

/-- The pagination block of `src/unnamed/part_000`, lines 218–230:
`startIndex = (page - 1) * limit`, `endIndex = startIndex + parseInt(limit)`,
slice, and the page metadata, with `page` defaulting to `1` and `limit`
to `10` when absent. -/
def paginate (records : List α) (page limit : QParam) : Paginated α :=
  let pageN := page.toNum 1
  let limitN := limit.toNum 10
  let startIndex := (pageN.sub (.int 1)).mul limitN
  let endIndex := startIndex.add limitN
  { items := jsSlice records startIndex endIndex
    currentPage := pageN
    totalPages := jsCeilDiv records.length limitN
    totalCount := records.length
    hasNextPage := endIndex.ltB (.int records.length)
    hasPrevPage := startIndex.gtB (.int 0) }

/-- The query parameters of `GET /api/movies`. -/
structure MoviesQuery where
  search : Option String
  genre : Option String
  sortBy : Option String
  page : QParam
  limit : QParam

/-- The free-text predicate of `GET /api/movies` (title, director or
description contains the query, case-insensitively). -/
def movieMatchesSearch (search : String) (m : Movie) : Bool :=
  jsIncludes (jsToLower m.title) (jsToLower search) ||
  jsIncludes (jsToLower m.director) (jsToLower search) ||
  jsIncludes (jsToLower m.description) (jsToLower search)

/-- The comparator switch of `GET /api/movies` rendered as a
before-or-tied relation: `year` and `rating` sort descending, the
default sorts by title ascending. -/
def movieSortLe (sortBy : String) (a b : Movie) : Bool :=
  if sortBy = "year" then decide (b.year ≤ a.year)
  else if sortBy = "rating" then decide (b.rating ≤ a.rating)
  else jsStrLe a.title b.title

/-- The `GET /api/movies` handler of `src/unnamed/part_000`, lines
183–234, including its effect on the stored catalog.  The source binds
`let filteredMovies = movies`, which *aliases* the module-level array;
`Array.prototype.filter` returns a fresh array while
`Array.prototype.sort` sorts in place, so when neither the search nor the
genre filter runs, the `sort` call reorders the stored catalog itself.
The boolean `aliased` flag tracks whether `filteredMovies` still refers
to the stored array; the returned state is the stored catalog after the
request. -/
def listMovies (movies : List Movie) (q : MoviesQuery) :
    Paginated Movie × List Movie :=
  let search := q.search.getD ""
  let genre := q.genre.getD ""
  let sortBy := q.sortBy.getD "title"
  let f0 := movies
  let aliased0 := true
  let f1 := if search ≠ "" then f0.filter (movieMatchesSearch search) else f0
  let aliased1 := if search ≠ "" then false else aliased0
  let f2 := if genre ≠ "" then
      f1.filter (fun m => jsToLower m.genre == jsToLower genre) else f1
  let aliased2 := if genre ≠ "" then false else aliased1
  let sorted := jsStableSort (movieSortLe sortBy) f2
  (paginate sorted q.page q.limit, if aliased2 then sorted else movies)

/-- The `.toFixed(1)` rounding of the average rating: one decimal digit,
exact ties rounding up (the ECMAScript rule "pick the larger n"). -/
def toFixed1 (x : ℚ) : ℚ := (round (x * 10) : ℚ) / 10

/-- The successful payload of `GET /api/movies/:id`. -/
structure MovieWithStats where
  movie : Movie
  reviews : List Review
  reviewCount : ℕ
  averageRating : ℚ
deriving Repr

/-- The `GET /api/movies/:id` handler of `src/unnamed/part_000`, lines
237–260: find the movie, collect its reviews, and report their count and
their mean rating rounded to one decimal (`0` when there are none). -/
def getMovieWithStats (movies : List Movie) (reviews : List Review)
    (movieId : ℕ) : Except ApiErr MovieWithStats :=
  match movies.find? (fun m => m.id == movieId) with
  | none => .error .notFound
  | some movie =>
    let movieReviews := reviews.filter (fun r => r.movieId == movieId)
    .ok { movie := movie
          reviews := movieReviews
          reviewCount := movieReviews.length
          averageRating :=
            if 0 < movieReviews.length then
              toFixed1 ((movieReviews.foldl (fun sum r => sum + (r.rating : ℚ)) 0) /
                (movieReviews.length : ℚ))
            else 0 }

/-- The id assigned by `POST /api/reviews`:
`reviews.length > 0 ? Math.max(...reviews.map(r => r.id)) + 1 : 1`. -/
def nextReviewId (reviews : List Review) : ℕ :=
  match reviews with
  | [] => 1
  | _ :: _ => (reviews.map (fun x => x.id)).foldl max 0 + 1

/-- The request body of `POST /api/reviews` (in-memory route): every field
optional at the HTTP level; `movieId` is modelled post-`parseInt` as a
natural number (`0` standing for any falsy value). -/
structure CreateBody where
  movieId : Option ℕ
  userId : Option String
  userName : Option String
  rating : Option ℚ
  text : Option String

/-- The `POST /api/reviews` handler of `src/unnamed/part_000`, lines
292–341: required-field truthiness check, rating range check, movie
existence check, duplicate check on the `(movieId, userId)` pair, then
insertion with `id = max(existing ids) + 1` (or `1` for an empty store),
`parseInt`-truncated rating, trimmed text, and equal timestamps.  Every
failure leaves the store unchanged; the second component of the result is
the store after the request. -/
def createReview (movies : List Movie) (reviews : List Review) (now : ℕ)
    (b : CreateBody) : Except ApiErr Review × List Review :=
  match b.movieId, b.userId, b.userName, b.rating, b.text with
  | some movieId, some userId, some userName, some rating, some text =>
    if movieId = 0 ∨ userId = "" ∨ userName = "" ∨ rating = 0 ∨ text = "" then
      (.error .invalidArgument, reviews)
    else if rating < 1 ∨ 5 < rating then
      (.error .invalidArgument, reviews)
    else if ¬ movies.any (fun m => m.id == movieId) then
      (.error .notFound, reviews)
    else
      match reviews.find? (fun r => r.movieId == movieId && r.userId == userId) with
      | some _ => (.error .duplicateReview, reviews)
      | none =>
        let newReview : Review :=
          { id := nextReviewId reviews
            movieId := movieId
            userId := userId
            userName := userName
            rating := jsParseInt rating
            text := jsTrim text
            createdAt := now
            updatedAt := now }
        (.ok newReview, reviews ++ [newReview])
  | _, _, _, _, _ => (.error .invalidArgument, reviews)

/-- The request body of `PUT /api/reviews/:id` / `DELETE /api/reviews/:id`
(in-memory route).  Note that `userId` — the value the ownership check
compares against — is itself a request-body field in this route. -/
structure UpdateBody where
  rating : Option ℚ
  text : Option String
  userId : Option String

/-- Recursive core of the `PUT /api/reviews/:id` handler
(`src/unnamed/part_000`, lines 344–377): locate the first review with the
requested id (`findIndex`), reject with `403` when the stored author
differs from the body's `userId`, reject with `400` when a truthy rating
is out of `[1, 5]`, otherwise overwrite in place the rating (truthy only,
`parseInt`-truncated), the text (truthy only, trimmed) and `updatedAt`.
Reviews before and after the located index are untouched; every failure
leaves the list unchanged. -/
def updateGo (now : ℕ) (reviewId : ℕ) (b : UpdateBody) :
    List Review → Except ApiErr Review × List Review
  | [] => (.error .notFound, [])
  | r :: rest =>
    if r.id = reviewId then
      if b.userId = some r.userId then
        match b.rating with
        | some q =>
          if q ≠ 0 ∧ (q < 1 ∨ 5 < q) then (.error .invalidArgument, r :: rest)
          else
            let r' := { r with
              rating := if q ≠ 0 then jsParseInt q else r.rating
              text := match b.text with
                      | some t => if t ≠ "" then jsTrim t else r.text
                      | none => r.text
              updatedAt := now }
            (.ok r', r' :: rest)
        | none =>
          let r' := { r with
            text := match b.text with
                    | some t => if t ≠ "" then jsTrim t else r.text
                    | none => r.text
            updatedAt := now }
          (.ok r', r' :: rest)
      else (.error .forbidden, r :: rest)
    else
      let res := updateGo now reviewId b rest
      (res.1, r :: res.2)

/-- The `PUT /api/reviews/:id` handler of `src/unnamed/part_000`. -/
def updateReview (reviews : List Review) (now : ℕ) (reviewId : ℕ)
    (b : UpdateBody) : Except ApiErr Review × List Review :=
  updateGo now reviewId b reviews

/-- Recursive core of the `DELETE /api/reviews/:id` handler
(`src/unnamed/part_000`, lines 380–403): locate the first review with the
requested id, reject with `403` when the stored author differs from the
body's `userId`, otherwise splice it out. -/
def deleteGo (bodyUserId : Option String) (reviewId : ℕ) :
    List Review → Except ApiErr Unit × List Review
  | [] => (.error .notFound, [])
  | r :: rest =>
    if r.id = reviewId then
      if bodyUserId = some r.userId then (.ok (), rest)
      else (.error .forbidden, r :: rest)
    else
      let res := deleteGo bodyUserId reviewId rest
      (res.1, r :: res.2)

/-- The `DELETE /api/reviews/:id` handler of `src/unnamed/part_000`. -/
def deleteReview (reviews : List Review) (reviewId : ℕ) (b : UpdateBody) :
    Except ApiErr Unit × List Review :=
  deleteGo b.userId reviewId reviews

/-- A review document of the Firestore-backed router
(`src/server/routes/reviews.js`): no `userName` is stored; `rating` is
stored exactly as supplied (the route performs no `parseInt`). -/
structure FsReview where
  movieId : String
  userId : String
  rating : ℚ
  text : String
  createdAt : ℕ
  updatedAt : ℕ
deriving DecidableEq, Repr

/-- The Firestore `reviews` collection: documents keyed by document id. -/
def FsStore := List (String × FsReview)

/-- A Firebase Auth user record as the enrichment code consumes it
(`displayName` and `photoURL` may be absent). -/
structure UserRecord where
  displayName : Option String
  email : String
  photoURL : Option String

/-- `userRecord.displayName || userRecord.email`: the first operand unless
it is falsy (absent or empty). -/
def jsOrElse (a : Option String) (b : String) : String :=
  match a with
  | none => b
  | some s => if s = "" then b else s

/-- A review as returned by the Firestore read routes: the stored document
plus its id and, when the author lookup succeeded, the enrichment fields. -/
structure EnrichedReview where
  docId : String
  review : FsReview
  userName : Option String
  userPhoto : Option String
deriving DecidableEq, Repr

/-- The per-review enrichment of `GET /movie/:movieId`
(`src/server/routes/reviews.js`, lines 48–63): for each review, attempt
the author lookup (`lookup` returns `none` exactly when
`admin.auth().getUser` throws); on success attach `userName`/`userPhoto`,
on failure return the review unenriched.  The whole request succeeds
either way. -/
def enrichReviews (lookup : String → Option UserRecord) :
    List (String × FsReview) → List EnrichedReview :=
  List.map (fun d =>
    match lookup d.2.userId with
    | some u =>
      { docId := d.1, review := d.2,
        userName := some (jsOrElse u.displayName u.email),
        userPhoto := u.photoURL }
    | none => { docId := d.1, review := d.2, userName := none, userPhoto := none })

/-- The `GET /:reviewId` handler of `src/server/routes/reviews.js`, lines
73–107: `404` when the document is absent; otherwise the document is
returned, with the enrichment fields attached only when the author lookup
succeeds — a failed lookup is caught and the request still succeeds. -/
def getReviewFS (db : FsStore) (lookup : String → Option UserRecord)
    (reviewId : String) : Except ApiErr EnrichedReview :=
  match db.find? (fun d => d.1 == reviewId) with
  | none => .error .notFound
  | some d =>
    match lookup d.2.userId with
    | some u =>
      .ok { docId := d.1, review := d.2,
            userName := some (jsOrElse u.displayName u.email),
            userPhoto := u.photoURL }
    | none => .ok { docId := d.1, review := d.2, userName := none, userPhoto := none }

/-- The `PUT /:reviewId` handler of `src/server/routes/reviews.js`, lines
163–206.  The route runs behind `verifyToken`, so `uid` is the verified
identity from the decoded token (`req.user.uid`), not a body field — the
body contributes only `rating` and `text`, both required and truthy
(`400` otherwise), with the rating range-checked.  Ownership compares the
stored `userId` against `uid`; a mismatch is `403` and the store is
unchanged.  A successful update overwrites `rating`, trimmed `text` and
`updatedAt` of that document only. -/
def updateReviewFS (db : FsStore) (now : ℕ) (uid : String) (reviewId : String)
    (rating : Option ℚ) (text : Option String) :
    Except ApiErr Unit × FsStore :=
  match rating, text with
  | some q, some t =>
    if q = 0 ∨ t = "" then (.error .invalidArgument, db)
    else if q < 1 ∨ 5 < q then (.error .invalidArgument, db)
    else
      match db.find? (fun d => d.1 == reviewId) with
      | none => (.error .notFound, db)
      | some d =>
        if d.2.userId = uid then
          (.ok (), db.map (fun e =>
            if e.1 == reviewId then
              (e.1, { e.2 with rating := q, text := jsTrim t, updatedAt := now })
            else e))
        else (.error .forbidden, db)
  | _, _ => (.error .invalidArgument, db)

/-- The `DELETE /:reviewId` handler of `src/server/routes/reviews.js`,
lines 209–234: verified identity `uid`, `404` when absent, `403` on an
ownership mismatch (store unchanged), otherwise the document is removed. -/
def deleteReviewFS (db : FsStore) (uid : String) (reviewId : String) :
    Except ApiErr Unit × FsStore :=
  match db.find? (fun d => d.1 == reviewId) with
  | none => (.error .notFound, db)
  | some d =>
    if d.2.userId = uid then
      (.ok (), db.filter (fun e => ¬ e.1 == reviewId))
    else (.error .forbidden, db)

/-- The uniqueness invariant of the review collection: no two stored
reviews share a `(movieId, userId)` pair. -/
def AtMostOnePerPair (l : List Review) : Prop :=
  l.Pairwise (fun a b => ¬ (a.movieId = b.movieId ∧ a.userId = b.userId))

instance : DecidablePred AtMostOnePerPair := fun l =>
  inferInstanceAs (Decidable (l.Pairwise _))

/-- The spec's description of the rating aggregate, stated over a bare
list of ratings: the mean rounded to one decimal, or `0` when there are
none.  Used to compare the handler's fold-based computation against the
spec's wording. -/
def specAverageRating (ratings : List ℤ) : ℚ :=
  if ratings = [] then 0
  else toFixed1 ((ratings.map (Int.cast : ℤ → ℚ)).sum / (ratings.length : ℚ))

lemma foldl_max_bounds (l : List ℕ) (a : ℕ) :
    a ≤ l.foldl max a ∧ ∀ x ∈ l, x ≤ l.foldl max a := by
  induction l generalizing a with
  | nil => simp
  | cons b tl ih =>
    refine ⟨le_trans (le_max_left a b) (ih (max a b)).1, ?_⟩
    intro x hx
    rcases List.mem_cons.mp hx with rfl | hx
    · exact le_trans (le_max_right a x) (ih (max a x)).1
    · exact (ih (max a b)).2 x hx

lemma foldl_add_eq_sum (f : α → ℚ) (l : List α) (a : ℚ) :
    l.foldl (fun s x => s + f x) a = a + (l.map f).sum := by
  induction l generalizing a with
  | nil => simp
  | cons b tl ih => simp [ih, add_assoc]

lemma take_min_drop_min (l : List α) (a k : ℕ) :
    (l.take (min (a + k) l.length)).drop (min a l.length) = (l.drop a).take k := by
  rcases le_total a l.length with h | h
  · rw [min_eq_left h]
    have h2 : l.take (min (a + k) l.length) = l.take (a + k) := by
      rw [List.take_eq_take]
      simp [inf_assoc]
    rw [h2, List.drop_take]
    congr 1
    omega
  · rw [min_eq_right h]
    rw [List.drop_eq_nil_of_le (by rw [List.length_take]; exact inf_le_right)]
    rw [List.drop_eq_nil_of_le h, List.take_nil]

/-- C10 — When listing a movie's reviews or fetching a single review, a
failed author lookup leaves the review itself in the response (without
the enrichment fields) and the request still succeeds: for every lookup
function — in particular one failing on any subset of authors — the
response carries exactly the stored reviews, and two lookups can differ
only in the enrichment fields; the single-review route succeeds on
exactly the stored documents whatever the lookup does. -/
theorem enrichment_failure_preserves_reviews :
    (∀ (lookup : String → Option UserRecord) (docs : List (String × FsReview)),
      (enrichReviews lookup docs).map (fun e => (e.docId, e.review)) = docs)
    ∧ (∀ (lookup₁ lookup₂ : String → Option UserRecord)
        (docs : List (String × FsReview)),
        (enrichReviews lookup₁ docs).map (fun e => (e.docId, e.review)) =
          (enrichReviews lookup₂ docs).map (fun e => (e.docId, e.review)))
    ∧ (∀ (db : FsStore) (lookup : String → Option UserRecord) (rid : String),
        (getReviewFS db lookup rid).toOption.map (fun e => (e.docId, e.review)) =
          db.find? (fun d => d.1 == rid)) := by
  have key : ∀ (lookup : String → Option UserRecord)
      (docs : List (String × FsReview)),
      (enrichReviews lookup docs).map (fun e => (e.docId, e.review)) = docs := by
    intro lookup docs
    induction docs with
    | nil => rfl
    | cons d tl ih =>
      obtain ⟨did, r⟩ := d
      simp only [enrichReviews, List.map_cons] at *
      cases lookup r.userId <;> simp [ih]
  refine ⟨key, fun l₁ l₂ docs => (key l₁ docs).trans (key l₂ docs).symm, ?_⟩
  intro db lookup rid
  rcases hfind : db.find? (fun d => d.1 == rid) with _ | d
  · simp [getReviewFS, hfind, Except.toOption]
  · simp only [getReviewFS, hfind]
    cases lookup d.2.userId <;> simp [Except.toOption]

/-- C6 — evaluation of the code at the failing input.  `GET /api/movies`
with neither a search string nor a genre (the default listing) aliases
the module-level `movies` array and sorts it in place: after the request
the stored catalog is reordered by title (`[5, 4, 3, 2, 1]` by id,
i.e. Forrest Gump, Pulp Fiction, The Dark Knight, The Godfather, The
Shawshank Redemption), so this read mutates the stored movie collection;
a request that does apply a filter (fourth conjunct) operates on a fresh
array and leaves the stored catalog unchanged. -/
theorem listMovies_default_read_mutates_catalog :
    ((listMovies sampleMovies
        { search := none, genre := none, sortBy := none,
          page := .missing, limit := .missing }).2.map (fun m => m.id)
      = [5, 4, 3, 2, 1])
    ∧ sampleMovies.map (fun m => m.id) = [1, 2, 3, 4, 5]
    ∧ (listMovies sampleMovies
        { search := none, genre := none, sortBy := none,
          page := .missing, limit := .missing }).2 ≠ sampleMovies
    ∧ (listMovies sampleMovies
        { search := some "dark", genre := none, sortBy := none,
          page := .missing, limit := .missing }).2 = sampleMovies := by
  have h1 : (listMovies sampleMovies
      { search := none, genre := none, sortBy := none,
        page := .missing, limit := .missing }).2.map (fun m => m.id)
      = [5, 4, 3, 2, 1] := by decide
  have h2 : sampleMovies.map (fun m => m.id) = [1, 2, 3, 4, 5] := by decide
  refine ⟨h1, h2, ?_, ?_⟩
  · intro h
    rw [h, h2] at h1
    exact absurd h1 (by decide)
  · rfl

/-- C3 (amended) — For numeric `page ≥ 1` and `limit ≥ 1`, pagination
returns exactly the slice `[startIndex, startIndex + limit)` of the
sequence with `startIndex = (page - 1) * limit`, of length at most
`limit` and empty (not an error) when `startIndex` reaches the sequence
length, together with `totalPages = ceil(totalCount / limit)`,
`hasNextPage = (endIndex < totalCount)` and
`hasPrevPage = (startIndex > 0)`; absent `page` / `limit` default to `1`
and `10`.  (Non-numeric values are *not* defaulted and values below `1`
are *not* clamped — see the counterexample theorem.) -/
theorem paginate_valid_inputs_spec {α : Type} (records : List α) (p l : ℤ)
    (hp : 1 ≤ p) (hl : 1 ≤ l) :
    ((paginate records (.num p) (.num l)).items
        = (records.drop ((p - 1) * l).toNat).take l.toNat)
    ∧ (paginate records (.num p) (.num l)).items.length ≤ l.toNat
    ∧ (records.length ≤ ((p - 1) * l).toNat →
        (paginate records (.num p) (.num l)).items = [])
    ∧ (paginate records (.num p) (.num l)).currentPage = .int p
    ∧ (paginate records (.num p) (.num l)).totalPages
        = .int ⌈(records.length : ℚ) / (l : ℚ)⌉
    ∧ (paginate records (.num p) (.num l)).totalCount = records.length
    ∧ (paginate records (.num p) (.num l)).hasNextPage
        = decide (((p - 1) * l + l : ℤ) < (records.length : ℤ))
    ∧ (paginate records (.num p) (.num l)).hasPrevPage
        = decide ((0 : ℤ) < (p - 1) * l)
    ∧ paginate records .missing .missing = paginate records (.num 1) (.num 10) := by
  have hs : (0 : ℤ) ≤ (p - 1) * l := mul_nonneg (by omega) (by omega)
  have e : ∀ (n : ℤ), 0 ≤ n →
      jsSliceIndex records.length (.int n) = min n.toNat records.length := by
    intro n hn
    simp only [jsSliceIndex]
    rw [if_neg (by omega)]
  have hitems : (paginate records (.num p) (.num l)).items
      = (records.drop ((p - 1) * l).toNat).take l.toNat := by
    show jsSlice records (.int ((p - 1) * l)) (.int ((p - 1) * l + l))
        = (records.drop ((p - 1) * l).toNat).take l.toNat
    unfold jsSlice
    rw [e _ hs, e _ (add_nonneg hs (by omega)),
      Int.toNat_add hs (by omega : (0 : ℤ) ≤ l)]
    exact take_min_drop_min records ((p - 1) * l).toNat l.toNat
  refine ⟨hitems, ?_, ?_, rfl, ?_, rfl, rfl, rfl, rfl⟩
  · rw [hitems, List.length_take]
    exact inf_le_left
  · intro hlen
    rw [hitems, List.drop_eq_nil_of_le hlen, List.take_nil]
  · show jsCeilDiv records.length (.int l) = .int ⌈(records.length : ℚ) / (l : ℚ)⌉
    simp only [jsCeilDiv]
    rw [if_neg (by omega : ¬ l = 0)]

/-- C3 — counterexample.  The claim says a non-numeric `page` defaults to
`1`, i.e. the request would return the first page; in the code the `NaN`
produced by `(page - 1) * limit` propagates into `slice`, which clamps
both bounds to `0`: the result is the empty slice (and `currentPage` is
`NaN`), not the first page `[10, 20, 30]` that an actual default of `1`
produces. -/
theorem paginate_nonNumeric_page_not_defaulted :
    (paginate ([10, 20, 30] : List ℕ) .nonNumeric .missing).items = []
    ∧ (paginate ([10, 20, 30] : List ℕ) (.num 1) .missing).items = [10, 20, 30]
    ∧ (paginate ([10, 20, 30] : List ℕ) .nonNumeric .missing).currentPage = .nan := by
  refine ⟨rfl, rfl, rfl⟩

/-- Witness for `paginate_valid_inputs_spec`: page 2 of `[10, 20, 30, 40, 50]`
with limit 2 is `[30, 40]`, and the page count is `⌈5 / 2⌉ = 3`. -/
theorem paginate_valid_inputs_spec_witness :
    (paginate ([10, 20, 30, 40, 50] : List ℕ) (.num 2) (.num 2)).items = [30, 40]
    ∧ (paginate ([10, 20, 30, 40, 50] : List ℕ) (.num 2) (.num 2)).totalPages
        = .int 3
    ∧ (paginate ([10, 20, 30, 40, 50] : List ℕ) (.num 2) (.num 2)).hasNextPage = true
    ∧ (paginate ([10, 20, 30, 40, 50] : List ℕ) (.num 2) (.num 2)).hasPrevPage = true := by
  obtain ⟨h1, _, _, _, h5, _, h7, h8, _⟩ :=
    paginate_valid_inputs_spec ([10, 20, 30, 40, 50] : List ℕ) 2 2
      (by decide) (by decide)
  refine ⟨by rw [h1]; rfl, ?_, by rw [h7]; rfl, by rw [h8]; rfl⟩
  rw [h5]
  congr 1
  rw [Int.ceil_eq_iff]
  norm_num

lemma createReview_ok_spec {ms : List Movie} {rs : List Review} {now : ℕ}
    {b : CreateBody} {r : Review} {st' : List Review}
    (h : createReview ms rs now b = (.ok r, st')) :
    ∃ movieId userId userName rating text,
      b.movieId = some movieId ∧ b.userId = some userId ∧
      b.userName = some userName ∧ b.rating = some rating ∧ b.text = some text ∧
      ¬ (movieId = 0 ∨ userId = "" ∨ userName = "" ∨ rating = 0 ∨ text = "") ∧
      ¬ (rating < 1 ∨ 5 < rating) ∧
      ms.any (fun m => m.id == movieId) = true ∧
      rs.find? (fun x => x.movieId == movieId && x.userId == userId) = none ∧
      r = { id := nextReviewId rs
            movieId := movieId, userId := userId, userName := userName,
            rating := jsParseInt rating, text := jsTrim text,
            createdAt := now, updatedAt := now } ∧
      st' = rs ++ [r] := by
  unfold createReview at h
  split at h
  next movieId userId userName rating text hbm hbu hbn hbr hbt =>
    split at h
    next => simp at h
    next h1 =>
      split at h
      next => simp at h
      next h2 =>
        split at h
        next h3 => simp at h
        next h3 =>
          split at h
          next => simp at h
          next h4 =>
            simp only [Prod.mk.injEq, Except.ok.injEq] at h
            refine ⟨movieId, userId, userName, rating, text,
              hbm, hbu, hbn, hbr, hbt, h1, h2, not_not.mp h3, h4, h.1.symm, ?_⟩
            rw [← h.2, h.1]
  next => simp at h

lemma createReview_bad_rating {ms : List Movie} {rs : List Review} {now : ℕ}
    {b : CreateBody} {q : ℚ} (hbr : b.rating = some q)
    (hq : q = 0 ∨ q < 1 ∨ 5 < q) :
    createReview ms rs now b = (.error .invalidArgument, rs) := by
  obtain ⟨bm, bu, bn, br, bt⟩ := b
  simp only at hbr
  subst hbr
  cases bm with
  | none => rfl
  | some movieId =>
    cases bu with
    | none => rfl
    | some userId =>
      cases bn with
      | none => rfl
      | some userName =>
        cases bt with
        | none => rfl
        | some text =>
          simp only [createReview]
          rcases hq with hq | hq
          · rw [if_pos (by tauto)]
          · by_cases h1 : movieId = 0 ∨ userId = "" ∨ userName = "" ∨ q = 0 ∨ text = ""
            · rw [if_pos h1]
            · rw [if_neg h1, if_pos hq]

lemma createReview_duplicate {ms : List Movie} {rs : List Review} {now : ℕ}
    {movieId : ℕ} {userId userName : String} {q : ℚ} {text : String}
    (hreq : ¬ (movieId = 0 ∨ userId = "" ∨ userName = "" ∨ q = 0 ∨ text = ""))
    (hrange : ¬ (q < 1 ∨ 5 < q))
    (hmovie : ms.any (fun m => m.id == movieId) = true)
    (hdup : ∃ x ∈ rs, x.movieId = movieId ∧ x.userId = userId) :
    createReview ms rs now
        ⟨some movieId, some userId, some userName, some q, some text⟩
      = (.error .duplicateReview, rs) := by
  simp only [createReview]
  rw [if_neg hreq, if_neg hrange, if_neg (by simp [hmovie])]
  have : (rs.find? (fun x => x.movieId == movieId && x.userId == userId)).isSome
      = true := by
    rw [List.find?_isSome]
    obtain ⟨x, hx, h1, h2⟩ := hdup
    exact ⟨x, hx, by simp [h1, h2]⟩
  rcases hfind : rs.find? (fun x => x.movieId == movieId && x.userId == userId)
    with _ | y
  · rw [hfind] at this
    simp at this
  · rw [hfind]

lemma createReview_no_duplicate_ok {ms : List Movie} {rs : List Review} {now : ℕ}
    {movieId : ℕ} {userId userName : String} {q : ℚ} {text : String}
    (hreq : ¬ (movieId = 0 ∨ userId = "" ∨ userName = "" ∨ q = 0 ∨ text = ""))
    (hrange : ¬ (q < 1 ∨ 5 < q))
    (hmovie : ms.any (fun m => m.id == movieId) = true)
    (hnodup : ∀ x ∈ rs, ¬ (x.movieId = movieId ∧ x.userId = userId)) :
    ∃ r st', createReview ms rs now
        ⟨some movieId, some userId, some userName, some q, some text⟩
      = (.ok r, st') ∧ r.rating = jsParseInt q ∧ r.text = jsTrim text := by
  simp only [createReview]
  rw [if_neg hreq, if_neg hrange, if_neg (by simp [hmovie])]
  have hfind : rs.find? (fun x => x.movieId == movieId && x.userId == userId)
      = none := by
    rw [List.find?_eq_none]
    intro x hx
    simp only [Bool.and_eq_true, beq_iff_eq, not_and]
    intro h1 h2
    exact hnodup x hx ⟨h1, h2⟩
  rw [hfind]
  exact ⟨_, _, rfl, rfl, rfl⟩

lemma updateGo_ok_spec {now rid : ℕ} {b : UpdateBody} :
    ∀ {l : List Review} {r' : Review} {st' : List Review},
      updateGo now rid b l = (.ok r', st') →
      ∃ pre old post, l = pre ++ old :: post ∧ st' = pre ++ r' :: post ∧
        old.id = rid ∧ b.userId = some old.userId ∧
        r' = { old with
          rating := match b.rating with
                    | some q => if q ≠ 0 then jsParseInt q else old.rating
                    | none => old.rating
          text := match b.text with
                  | some t => if t ≠ "" then jsTrim t else old.text
                  | none => old.text
          updatedAt := now } := by
  obtain ⟨brat, btext, buid⟩ := b
  intro l
  induction l with
  | nil => intro r' st' h; exact absurd h (by simp [updateGo])
  | cons r rest ih =>
    intro r' st' h
    simp only [updateGo] at h
    by_cases hid : r.id = rid
    · rw [if_pos hid] at h
      by_cases hown : buid = some r.userId
      · rw [if_pos hown] at h
        rcases brat with _ | q
        · simp only [Prod.mk.injEq, Except.ok.injEq] at h
          exact ⟨[], r, rest, rfl, by rw [← h.2, ← h.1]; rfl, hid, hown,
            by rw [← h.1]⟩
        · simp only [] at h
          by_cases hq : q ≠ 0 ∧ (q < 1 ∨ 5 < q)
          · rw [if_pos hq] at h
            simp at h
          · rw [if_neg hq] at h
            simp only [Prod.mk.injEq, Except.ok.injEq] at h
            exact ⟨[], r, rest, rfl, by rw [← h.2, ← h.1]; rfl, hid, hown,
              by rw [← h.1]⟩
      · rw [if_neg hown] at h
        simp at h
    · rw [if_neg hid] at h
      simp only [Prod.mk.injEq] at h
      obtain ⟨h1, h2⟩ := h
      have hpair : updateGo now rid ⟨brat, btext, buid⟩ rest
          = (.ok r', (updateGo now rid ⟨brat, btext, buid⟩ rest).2) := by
        rw [← h1]
      obtain ⟨pre, old, post, e1, e2, e3, e4, e5⟩ := ih hpair
      exact ⟨r :: pre, old, post, by rw [List.cons_append, ← e1],
        by rw [← h2, e2, List.cons_append], e3, e4, e5⟩

lemma updateGo_err_state {now rid : ℕ} {b : UpdateBody} :
    ∀ {l : List Review} {e : ApiErr} {st' : List Review},
      updateGo now rid b l = (.error e, st') → st' = l := by
  obtain ⟨brat, btext, buid⟩ := b
  intro l
  induction l with
  | nil =>
    intro e st' h
    simp only [updateGo, Prod.mk.injEq] at h
    exact h.2.symm
  | cons r rest ih =>
    intro e st' h
    simp only [updateGo] at h
    by_cases hid : r.id = rid
    · rw [if_pos hid] at h
      by_cases hown : buid = some r.userId
      · rw [if_pos hown] at h
        rcases brat with _ | q
        · simp at h
        · simp only [] at h
          by_cases hq : q ≠ 0 ∧ (q < 1 ∨ 5 < q)
          · rw [if_pos hq] at h
            simp only [Prod.mk.injEq] at h
            exact h.2.symm
          · rw [if_neg hq] at h
            simp at h
      · rw [if_neg hown] at h
        simp only [Prod.mk.injEq] at h
        exact h.2.symm
    · rw [if_neg hid] at h
      simp only [Prod.mk.injEq] at h
      obtain ⟨h1, h2⟩ := h
      have hpair : updateGo now rid ⟨brat, btext, buid⟩ rest
          = (.error e, (updateGo now rid ⟨brat, btext, buid⟩ rest).2) := by
        rw [← h1]
      rw [← h2, ih hpair]

lemma updateGo_forbidden {now rid : ℕ} {b : UpdateBody} :
    ∀ {l : List Review} {old : Review},
      l.find? (fun x => x.id == rid) = some old →
      b.userId ≠ some old.userId →
      updateGo now rid b l = (.error .forbidden, l) := by
  intro l
  induction l with
  | nil => intro old hfind _; simp at hfind
  | cons r rest ih =>
    intro old hfind hneq
    by_cases hid : r.id = rid
    · simp only [List.find?_cons, show (r.id == rid) = true by simp [hid]] at hfind
      injection hfind with hfind
      subst hfind
      simp only [updateGo]
      rw [if_pos hid, if_neg hneq]
    · simp only [List.find?_cons, show (r.id == rid) = false by simp [hid]] at hfind
      simp only [updateGo]
      rw [if_neg hid, ih hfind hneq]

lemma updateGo_invalid_rating {now rid : ℕ} {b : UpdateBody} {q : ℚ}
    (hbr : b.rating = some q) (hq0 : q ≠ 0) (hq : q < 1 ∨ 5 < q) :
    ∀ {l : List Review} {old : Review},
      l.find? (fun x => x.id == rid) = some old →
      b.userId = some old.userId →
      updateGo now rid b l = (.error .invalidArgument, l) := by
  obtain ⟨brat, btext, buid⟩ := b
  simp only [] at hbr
  subst hbr
  intro l
  induction l with
  | nil => intro old hfind _; simp at hfind
  | cons r rest ih =>
    intro old hfind hown
    by_cases hid : r.id = rid
    · simp only [List.find?_cons, show (r.id == rid) = true by simp [hid]] at hfind
      injection hfind with hfind
      subst hfind
      simp only [updateGo]
      rw [if_pos hid, if_pos hown, if_pos ⟨hq0, hq⟩]
    · simp only [List.find?_cons, show (r.id == rid) = false by simp [hid]] at hfind
      simp only [updateGo]
      rw [if_neg hid, ih hfind hown]

lemma updateGo_ok_exists {now rid : ℕ} {b : UpdateBody} {q : ℚ}
    (hbr : b.rating = some q) (hq : ¬ (q ≠ 0 ∧ (q < 1 ∨ 5 < q))) :
    ∀ {l : List Review} {old : Review},
      l.find? (fun x => x.id == rid) = some old →
      b.userId = some old.userId →
      ∃ r' st', updateGo now rid b l = (.ok r', st')
        ∧ r'.rating = (if q ≠ 0 then jsParseInt q else old.rating) := by
  obtain ⟨brat, btext, buid⟩ := b
  simp only [] at hbr
  subst hbr
  intro l
  induction l with
  | nil => intro old hfind _; simp at hfind
  | cons r rest ih =>
    intro old hfind hown
    by_cases hid : r.id = rid
    · simp only [List.find?_cons, show (r.id == rid) = true by simp [hid]] at hfind
      injection hfind with hfind
      subst hfind
      simp only [updateGo]
      rw [if_pos hid, if_pos hown, if_neg hq]
      exact ⟨_, _, rfl, rfl⟩
    · simp only [List.find?_cons, show (r.id == rid) = false by simp [hid]] at hfind
      obtain ⟨r', st', hpair, hrat⟩ := ih hfind hown
      simp only [updateGo]
      rw [if_neg hid, hpair]
      exact ⟨r', r :: st', rfl, hrat⟩

lemma deleteGo_forbidden {uid : Option String} {rid : ℕ} :
    ∀ {l : List Review} {old : Review},
      l.find? (fun x => x.id == rid) = some old →
      uid ≠ some old.userId →
      deleteGo uid rid l = (.error .forbidden, l) := by
  intro l
  induction l with
  | nil => intro old hfind _; simp at hfind
  | cons r rest ih =>
    intro old hfind hneq
    by_cases hid : r.id = rid
    · simp only [List.find?_cons, show (r.id == rid) = true by simp [hid]] at hfind
      injection hfind with hfind
      subst hfind
      simp only [deleteGo]
      rw [if_pos hid, if_neg hneq]
    · simp only [List.find?_cons, show (r.id == rid) = false by simp [hid]] at hfind
      simp only [deleteGo]
      rw [if_neg hid, ih hfind hneq]

/-- C1 — For every review-store state and create request for pair
`(movieId, userId)` passing the field, range and movie-existence
validations: if a review with that pair already exists the create fails
with `DuplicateReview` and the store is unchanged; if the create
succeeds, the new review is appended, carries that pair, and the
at-most-one-review-per-pair invariant is preserved. -/
theorem createReview_unique_per_pair (ms : List Movie) (rs : List Review)
    (now : ℕ) (movieId : ℕ) (userId userName : String) (q : ℚ) (text : String)
    (hreq : ¬ (movieId = 0 ∨ userId = "" ∨ userName = "" ∨ q = 0 ∨ text = ""))
    (hrange : ¬ (q < 1 ∨ 5 < q))
    (hmovie : ms.any (fun m => m.id == movieId) = true) :
    ((∃ x ∈ rs, x.movieId = movieId ∧ x.userId = userId) →
      createReview ms rs now
          ⟨some movieId, some userId, some userName, some q, some text⟩
        = (.error .duplicateReview, rs))
    ∧ (∀ r st',
        createReview ms rs now
            ⟨some movieId, some userId, some userName, some q, some text⟩
          = (.ok r, st') →
        st' = rs ++ [r] ∧ r.movieId = movieId ∧ r.userId = userId ∧
        (AtMostOnePerPair rs → AtMostOnePerPair st')) := by
  constructor
  · intro hdup
    exact createReview_duplicate hreq hrange hmovie hdup
  · intro r st' h
    obtain ⟨m', u', n', q', t', hbm, hbu, hbn, hbr, hbt, hreq', hrange', hmov',
      hfind, hr, hst⟩ := createReview_ok_spec h
    simp only [Option.some.injEq] at hbm hbu hbn hbr hbt
    subst hbm
    subst hbu
    subst hbn
    subst hbr
    subst hbt
    subst hr
    refine ⟨hst, rfl, rfl, ?_⟩
    intro hP
    rw [hst, AtMostOnePerPair, List.pairwise_append]
    refine ⟨hP, List.pairwise_singleton _ _, ?_⟩
    intro a ha c hc
    have hc' := List.mem_singleton.mp hc
    subst hc'
    show ¬ (a.movieId = movieId ∧ a.userId = userId)
    intro hcontra
    have hnone := List.find?_eq_none.mp hfind a ha
    simp only [Bool.and_eq_true, beq_iff_eq] at hnone
    exact hnone ⟨hcontra.1, hcontra.2⟩

/-- Witness for `createReview_unique_per_pair`: in the sample store,
`user123` has already reviewed movie 1, so a second create for that pair
fails with `DuplicateReview` and leaves the store unchanged. -/
theorem createReview_unique_per_pair_witness :
    createReview sampleMovies sampleReviews 100
        ⟨some 1, some "user123", some "John Doe", some 5, some "again"⟩
      = (.error .duplicateReview, sampleReviews) :=
  (createReview_unique_per_pair sampleMovies sampleReviews 100 1 "user123"
    "John Doe" 5 "again" (by decide) (by decide) (by decide)).1 (by decide)

/-- C9 (amended) — Each successful create assigns
`id = max(ids currently in the store) + 1` (or `1` when the store is
empty), which is strictly greater than every *currently stored* id, so no
two coexisting reviews ever share an identifier; but the maximum is taken
over the current store only, so after deletions the counter can fall back
and deleted identifiers are reused (see the counterexample theorem). -/
theorem createReview_id_fresh {ms : List Movie} {rs : List Review} {now : ℕ}
    {b : CreateBody} {r : Review} {st' : List Review}
    (h : createReview ms rs now b = (.ok r, st')) :
    (∀ x ∈ rs, x.id < r.id) ∧ r.id ∉ rs.map (fun x => x.id) ∧ st' = rs ++ [r] := by
  obtain ⟨m', u', n', q', t', _, _, _, _, _, _, _, _, _, hr, hst⟩ :=
    createReview_ok_spec h
  have hid : r.id = nextReviewId rs := by rw [hr]
  have hlt : ∀ x ∈ rs, x.id < r.id := by
    intro x hx
    rw [hid]
    cases rs with
    | nil => cases hx
    | cons a tl =>
      show x.id < ((a :: tl).map (fun y => y.id)).foldl max 0 + 1
      have hb := (foldl_max_bounds ((a :: tl).map (fun y => y.id)) 0).2 x.id
        (List.mem_map_of_mem _ hx)
      omega
  refine ⟨hlt, ?_, hst⟩
  intro hmem
  obtain ⟨x, hx, hxid⟩ := List.mem_map.mp hmem
  exact absurd hxid (ne_of_lt (hlt x hx))

/-- Witness for `createReview_id_fresh`: creating a review for movie 3 on
the three-review sample store assigns the fresh id `4 = max{1,2,3} + 1`. -/
theorem createReview_id_fresh_witness :
    (∀ x ∈ sampleReviews,
        x.id < (⟨4, 3, "newu", "New", 5, "fresh", 300, 300⟩ : Review).id)
    ∧ (⟨4, 3, "newu", "New", 5, "fresh", 300, 300⟩ : Review).id
        ∉ sampleReviews.map (fun x => x.id)
    ∧ sampleReviews ++ [⟨4, 3, "newu", "New", 5, "fresh", 300, 300⟩]
        = sampleReviews ++ [⟨4, 3, "newu", "New", 5, "fresh", 300, 300⟩] :=
  createReview_id_fresh (by decide :
    createReview sampleMovies sampleReviews 300
        ⟨some 3, some "newu", some "New", some 5, some "fresh"⟩
      = (.ok ⟨4, 3, "newu", "New", 5, "fresh", 300, 300⟩,
         sampleReviews ++ [⟨4, 3, "newu", "New", 5, "fresh", 300, 300⟩]))

/-- C9 — counterexample.  The claim says a new identifier is strictly
greater than every identifier *ever* assigned, so deleted ids are never
reused.  In the code the id is `max(current ids) + 1`: create two reviews
(ids 1 and 2), delete review 2, create again — the new review receives id
`2 = max{1} + 1`, reusing the id of the deleted review. -/
theorem review_ids_reused_after_delete :
    createReview sampleMovies [] 10
        ⟨some 1, some "alice", some "Alice", some 5, some "good"⟩
      = (.ok ⟨1, 1, "alice", "Alice", 5, "good", 10, 10⟩,
         [⟨1, 1, "alice", "Alice", 5, "good", 10, 10⟩])
    ∧ createReview sampleMovies [⟨1, 1, "alice", "Alice", 5, "good", 10, 10⟩] 11
        ⟨some 2, some "bob", some "Bob", some 4, some "fine"⟩
      = (.ok ⟨2, 2, "bob", "Bob", 4, "fine", 11, 11⟩,
         [⟨1, 1, "alice", "Alice", 5, "good", 10, 10⟩,
          ⟨2, 2, "bob", "Bob", 4, "fine", 11, 11⟩])
    ∧ deleteReview
        [⟨1, 1, "alice", "Alice", 5, "good", 10, 10⟩,
         ⟨2, 2, "bob", "Bob", 4, "fine", 11, 11⟩] 2 ⟨none, none, some "bob"⟩
      = (.ok (), [⟨1, 1, "alice", "Alice", 5, "good", 10, 10⟩])
    ∧ (createReview sampleMovies [⟨1, 1, "alice", "Alice", 5, "good", 10, 10⟩] 13
        ⟨some 4, some "carol", some "Carol", some 4, some "nice"⟩).1
      = .ok ⟨2, 4, "carol", "Carol", 4, "nice", 13, 13⟩ := by
  refine ⟨by decide, by decide, by decide, by decide⟩

/-- C7 — A successful update rewrites exactly one stored review, in
place: the store decomposes as `pre ++ old :: post` before and
`pre ++ r' :: post` after, so every other review is untouched; the
updated review keeps its id, movie id, author id, author name and
creation timestamp, `updatedAt` becomes the current time, and a rating or
text field absent from the request leaves the stored field unchanged. -/
theorem updateReview_frame {rs : List Review} {now rid : ℕ} {b : UpdateBody}
    {r' : Review} {st' : List Review}
    (h : updateReview rs now rid b = (.ok r', st')) :
    ∃ pre old post, rs = pre ++ old :: post ∧ st' = pre ++ r' :: post ∧
      old.id = rid ∧
      r'.id = old.id ∧ r'.movieId = old.movieId ∧ r'.userId = old.userId ∧
      r'.userName = old.userName ∧ r'.createdAt = old.createdAt ∧
      r'.updatedAt = now ∧
      (b.rating = none → r'.rating = old.rating) ∧
      (b.text = none → r'.text = old.text) := by
  obtain ⟨pre, old, post, e1, e2, e3, e4, e5⟩ := updateGo_ok_spec h
  subst e5
  refine ⟨pre, old, post, e1, e2, e3, rfl, rfl, rfl, rfl, rfl, rfl, ?_, ?_⟩
  · intro hbr
    rw [hbr]
  · intro hbt
    rw [hbt]

/-- Witness for `updateReview_frame`: updating review 1 with only a new
rating leaves id, movie, author, name, creation time and text unchanged
and refreshes `updatedAt`. -/
theorem updateReview_frame_witness :
    ∃ pre old post,
      [(⟨1, 1, "alice", "Alice", 5, "good", 10, 10⟩ : Review)]
        = pre ++ old :: post ∧
      [(⟨1, 1, "alice", "Alice", 3, "good", 10, 99⟩ : Review)]
        = pre ++ (⟨1, 1, "alice", "Alice", 3, "good", 10, 99⟩ : Review) :: post ∧
      old.id = 1 ∧
      (⟨1, 1, "alice", "Alice", 3, "good", 10, 99⟩ : Review).id = old.id ∧
      (⟨1, 1, "alice", "Alice", 3, "good", 10, 99⟩ : Review).movieId = old.movieId ∧
      (⟨1, 1, "alice", "Alice", 3, "good", 10, 99⟩ : Review).userId = old.userId ∧
      (⟨1, 1, "alice", "Alice", 3, "good", 10, 99⟩ : Review).userName = old.userName ∧
      (⟨1, 1, "alice", "Alice", 3, "good", 10, 99⟩ : Review).createdAt = old.createdAt ∧
      (⟨1, 1, "alice", "Alice", 3, "good", 10, 99⟩ : Review).updatedAt = 99 ∧
      ((⟨some 3, none, some "alice"⟩ : UpdateBody).rating = none →
        (⟨1, 1, "alice", "Alice", 3, "good", 10, 99⟩ : Review).rating = old.rating) ∧
      ((⟨some 3, none, some "alice"⟩ : UpdateBody).text = none →
        (⟨1, 1, "alice", "Alice", 3, "good", 10, 99⟩ : Review).text = old.text) :=
  updateReview_frame (by decide :
    updateReview [⟨1, 1, "alice", "Alice", 5, "good", 10, 10⟩] 99 1
        ⟨some 3, none, some "alice"⟩
      = (.ok ⟨1, 1, "alice", "Alice", 3, "good", 10, 99⟩,
         [⟨1, 1, "alice", "Alice", 3, "good", 10, 99⟩]))

/-- C2 (amended) — In both route sets, an update or delete whose
requesting identity differs from the stored author fails with `Forbidden`
and leaves the store unchanged.  In the Firestore routes (conjuncts 3–4)
that identity is `req.user.uid`, the verified token identity — the body
carries only `rating` and `text`, so no body contents influence
ownership.  In the in-memory routes (conjuncts 1–2) the compared identity
is itself the request-body field `userId`, so there a body carrying the
stored author's id passes the ownership check regardless of who sends the
request (see the counterexample theorem). -/
theorem ownership_checks :
    (∀ (rs : List Review) (now rid : ℕ) (b : UpdateBody) (old : Review),
        rs.find? (fun x => x.id == rid) = some old →
        b.userId ≠ some old.userId →
        updateReview rs now rid b = (.error .forbidden, rs))
    ∧ (∀ (rs : List Review) (rid : ℕ) (b : UpdateBody) (old : Review),
        rs.find? (fun x => x.id == rid) = some old →
        b.userId ≠ some old.userId →
        deleteReview rs rid b = (.error .forbidden, rs))
    ∧ (∀ (db : FsStore) (now : ℕ) (uid reviewId : String) (q : ℚ) (t : String)
        (d : String × FsReview),
        q ≠ 0 → ¬ (q < 1 ∨ 5 < q) → t ≠ "" →
        db.find? (fun e => e.1 == reviewId) = some d →
        d.2.userId ≠ uid →
        updateReviewFS db now uid reviewId (some q) (some t)
          = (.error .forbidden, db))
    ∧ (∀ (db : FsStore) (uid reviewId : String) (d : String × FsReview),
        db.find? (fun e => e.1 == reviewId) = some d →
        d.2.userId ≠ uid →
        deleteReviewFS db uid reviewId = (.error .forbidden, db)) := by
  refine ⟨?_, ?_, ?_, ?_⟩
  · intro rs now rid b old hfind hneq
    exact updateGo_forbidden hfind hneq
  · intro rs rid b old hfind hneq
    exact deleteGo_forbidden hfind hneq
  · intro db now uid reviewId q t d hq0 hrange ht hfind hneq
    simp only [updateReviewFS]
    rw [if_neg (by tauto), if_neg hrange]
    simp only [hfind]
    rw [if_neg hneq]
  · intro db uid reviewId d hfind hneq
    simp only [deleteReviewFS, hfind]
    rw [if_neg hneq]

/-- Witness for `ownership_checks`: a body whose `userId` names someone
other than review 1's author makes the in-memory update fail with
`Forbidden`, leaving the store unchanged. -/
theorem ownership_checks_witness :
    updateReview [⟨1, 1, "alice", "Alice", 5, "good", 10, 10⟩] 300 1
        ⟨some 3, some "pwned", some "mallory"⟩
      = (.error .forbidden, [⟨1, 1, "alice", "Alice", 5, "good", 10, 10⟩]) :=
  ownership_checks.1 [⟨1, 1, "alice", "Alice", 5, "good", 10, 10⟩] 300 1
    ⟨some 3, some "pwned", some "mallory"⟩
    ⟨1, 1, "alice", "Alice", 5, "good", 10, 10⟩ (by decide) (by decide)

/-- C2 — counterexample.  The claim says the compared identity is the
verified identity from the Identity Verifier, never a client-supplied
request-body field, so no body contents can make a non-author's mutation
succeed.  In the in-memory route (`src/unnamed/part_000`) the comparison
reads `userId` from `req.body`: two requests on the same store and review
that are identical except for the body's `userId` field get different
outcomes — `Forbidden` for one, success for the other — so body contents
alone decide the ownership check. -/
theorem body_userId_decides_ownership :
    updateReview [⟨1, 1, "alice", "Alice", 5, "good", 10, 10⟩] 300 1
        ⟨some 3, some "hacked", some "mallory"⟩
      = (.error .forbidden, [⟨1, 1, "alice", "Alice", 5, "good", 10, 10⟩])
    ∧ (updateReview [⟨1, 1, "alice", "Alice", 5, "good", 10, 10⟩] 300 1
        ⟨some 3, some "hacked", some "alice"⟩).1
      = .ok ⟨1, 1, "alice", "Alice", 3, "hacked", 10, 300⟩ := by
  refine ⟨by decide, by decide⟩

/-- C4 (amended) — Rating validation in the in-memory routes: a create
whose rating is `0` (falsy: caught by the required-field check), below
`1` or above `5` fails with `InvalidArgument` and the store is unchanged;
a create with a rating in `[1, 5]` (integral or not) that passes the
other validations succeeds and stores `parseInt(rating)` — non-integer
ratings such as `4.5` are *accepted* and truncated (see the
counterexample theorem), not rejected.  On update, a truthy out-of-range
rating fails with `InvalidArgument`; a rating of `0` is treated as absent
— the update succeeds and the stored rating is unchanged. -/
theorem rating_validation :
    (∀ (ms : List Movie) (rs : List Review) (now : ℕ) (b : CreateBody) (q : ℚ),
        b.rating = some q → (q = 0 ∨ q < 1 ∨ 5 < q) →
        createReview ms rs now b = (.error .invalidArgument, rs))
    ∧ (∀ (ms : List Movie) (rs : List Review) (now : ℕ) (movieId : ℕ)
        (userId userName : String) (q : ℚ) (text : String),
        ¬ (movieId = 0 ∨ userId = "" ∨ userName = "" ∨ q = 0 ∨ text = "") →
        ¬ (q < 1 ∨ 5 < q) →
        ms.any (fun m => m.id == movieId) = true →
        (∀ x ∈ rs, ¬ (x.movieId = movieId ∧ x.userId = userId)) →
        ∃ r st', createReview ms rs now
            ⟨some movieId, some userId, some userName, some q, some text⟩
          = (.ok r, st') ∧ r.rating = jsParseInt q)
    ∧ (∀ (rs : List Review) (now rid : ℕ) (b : UpdateBody) (q : ℚ) (old : Review),
        b.rating = some q → q ≠ 0 → (q < 1 ∨ 5 < q) →
        rs.find? (fun x => x.id == rid) = some old →
        b.userId = some old.userId →
        updateReview rs now rid b = (.error .invalidArgument, rs))
    ∧ (∀ (rs : List Review) (now rid : ℕ) (b : UpdateBody) (old : Review),
        b.rating = some 0 →
        rs.find? (fun x => x.id == rid) = some old →
        b.userId = some old.userId →
        ∃ r' st', updateReview rs now rid b = (.ok r', st')
          ∧ r'.rating = old.rating) := by
  refine ⟨?_, ?_, ?_, ?_⟩
  · intro ms rs now b q hbr hq
    exact createReview_bad_rating hbr hq
  · intro ms rs now movieId userId userName q text hreq hrange hmovie hnodup
    obtain ⟨r, st', hok, hrat, _⟩ :=
      createReview_no_duplicate_ok hreq hrange hmovie hnodup
    exact ⟨r, st', hok, hrat⟩
  · intro rs now rid b q old hbr hq0 hq hfind hown
    exact updateGo_invalid_rating hbr hq0 hq hfind hown
  · intro rs now rid b old hbr hfind hown
    obtain ⟨r', st', hok, hrat⟩ :=
      updateGo_ok_exists hbr (by simp) hfind hown
    refine ⟨r', st', hok, ?_⟩
    rw [hrat, if_neg (by simp)]

/-- Witness for `rating_validation`: a create with rating `6` fails with
`InvalidArgument` and leaves the sample store unchanged. -/
theorem rating_validation_witness :
    createReview sampleMovies sampleReviews 100
        ⟨some 1, some "u9", some "Nine", some 6, some "x"⟩
      = (.error .invalidArgument, sampleReviews) :=
  rating_validation.1 sampleMovies sampleReviews 100
    ⟨some 1, some "u9", some "Nine", some 6, some "x"⟩ 6 rfl (by decide)

/-- C4 — counterexample.  The claim says any non-integer rating fails
with `InvalidArgument`.  The code's only range check is
`rating < 1 || rating > 5`, which `4.5` passes; the create succeeds and
stores `parseInt(4.5) = 4`. -/
theorem non_integer_rating_accepted :
    (createReview sampleMovies [] 100
        ⟨some 3, some "carl", some "Carl",
          some ⟨9, 2, by decide, by decide⟩, some "okay"⟩).1
      = .ok ⟨1, 3, "carl", "Carl", 4, "okay", 100, 100⟩ := by
  decide

/-- C8 (amended) — Every successful create or update stores exactly the
trimmed form of the supplied text (a create also sets
`createdAt = updatedAt`), and a create whose text is the empty string
fails the required-field check with `InvalidArgument`.  Non-emptiness
after trimming is *not* enforced: a whitespace-only text is truthy,
passes the check, and is stored as the empty string (see the
counterexample theorem). -/
theorem review_body_trimmed :
    (∀ (ms : List Movie) (rs : List Review) (now : ℕ) (b : CreateBody)
        (r : Review) (st' : List Review),
        createReview ms rs now b = (.ok r, st') →
        ∃ t, b.text = some t ∧ t ≠ "" ∧ r.text = jsTrim t
          ∧ r.createdAt = r.updatedAt)
    ∧ (∀ (rs : List Review) (now rid : ℕ) (b : UpdateBody) (r' : Review)
        (st' : List Review) (t : String),
        updateReview rs now rid b = (.ok r', st') →
        b.text = some t → t ≠ "" → r'.text = jsTrim t)
    ∧ (∀ (ms : List Movie) (rs : List Review) (now : ℕ) (b : CreateBody),
        b.text = some "" →
        createReview ms rs now b = (.error .invalidArgument, rs)) := by
  refine ⟨?_, ?_, ?_⟩
  · intro ms rs now b r st' h
    obtain ⟨m', u', n', q', t', _, _, _, _, hbt, hreq', _, _, _, hr, _⟩ :=
      createReview_ok_spec h
    refine ⟨t', hbt, ?_, by rw [hr], by rw [hr]⟩
    intro ht
    exact hreq' (by tauto)
  · intro rs now rid b r' st' t h hbt ht
    obtain ⟨pre, old, post, _, _, _, _, e5⟩ := updateGo_ok_spec h
    rw [e5]
    show (match b.text with
          | some t => if t ≠ "" then jsTrim t else old.text
          | none => old.text) = jsTrim t
    rw [hbt]
    simp only [ht]
    rw [if_pos ht]
  · intro ms rs now b hbt
    obtain ⟨bm, bu, bn, br, bt⟩ := b
    simp only [] at hbt
    subst hbt
    cases bm with
    | none => rfl
    | some movieId =>
      cases bu with
      | none => rfl
      | some userId =>
        cases bn with
        | none => rfl
        | some userName =>
          cases br with
          | none => rfl
          | some q =>
            simp only [createReview]
            rw [if_pos (by tauto)]

/-- Witness for `review_body_trimmed`: the spec scenario — creating with
text `" Great "` stores the trimmed body `"Great"` with
`createdAt = updatedAt`. -/
theorem review_body_trimmed_witness :
    ∃ t, (⟨some 1, some "u1", some "Greta", some 5, some " Great "⟩
        : CreateBody).text = some t ∧ t ≠ "" ∧
      (⟨1, 1, "u1", "Greta", 5, "Great", 60, 60⟩ : Review).text = jsTrim t ∧
      (⟨1, 1, "u1", "Greta", 5, "Great", 60, 60⟩ : Review).createdAt
        = (⟨1, 1, "u1", "Greta", 5, "Great", 60, 60⟩ : Review).updatedAt :=
  review_body_trimmed.1 sampleMovies [] 60
    ⟨some 1, some "u1", some "Greta", some 5, some " Great "⟩
    ⟨1, 1, "u1", "Greta", 5, "Great", 60, 60⟩
    [⟨1, 1, "u1", "Greta", 5, "Great", 60, 60⟩] (by decide)

/-- C8 — counterexample.  The claim says a whitespace-only text never
results in a stored review with an empty body.  `"   "` is truthy, so the
required-field check passes, and `"   ".trim()` — the empty string — is
stored as the review body. -/
theorem whitespace_text_stores_empty_body :
    (createReview sampleMovies [] 50
        ⟨some 1, some "u1", some "Ursula", some 5, some "   "⟩).1
      = .ok ⟨1, 1, "u1", "Ursula", 5, "", 50, 50⟩
    ∧ (⟨1, 1, "u1", "Ursula", 5, "", 50, 50⟩ : Review).text = "" := by
  refine ⟨by decide, rfl⟩

/-- C5 — For every catalog, review store and movie id, a successful
movie-with-stats lookup reports exactly the reviews whose `movieId`
matches, `reviewCount` equal to their number, and `averageRating` equal
to the spec's aggregate (mean rounded to one decimal, `0` for zero
reviews); in particular ratings `[5, 4, 5]` yield `reviewCount = 3` and
`averageRating = 4.7`, and zero reviews yield `(0, 0)`. -/
theorem movie_stats_spec :
    (∀ (ms : List Movie) (rs : List Review) (mid : ℕ) (stats : MovieWithStats),
        getMovieWithStats ms rs mid = .ok stats →
        stats.reviews = rs.filter (fun r => r.movieId == mid)
        ∧ stats.reviewCount = (rs.filter (fun r => r.movieId == mid)).length
        ∧ stats.averageRating
            = specAverageRating
                ((rs.filter (fun r => r.movieId == mid)).map (fun r => r.rating)))
    ∧ (getMovieWithStats sampleMovies
          [⟨1, 1, "a", "A", 5, "x", 1, 1⟩, ⟨2, 1, "b", "B", 4, "y", 2, 2⟩,
           ⟨3, 1, "c", "C", 5, "z", 3, 3⟩] 1).map
        (fun s => (s.reviewCount, s.averageRating)) = .ok (3, 47/10)
    ∧ (getMovieWithStats sampleMovies [] 1).map
        (fun s => (s.reviewCount, s.averageRating)) = .ok (0, 0) := by
  have key : ∀ (ms : List Movie) (rs : List Review) (mid : ℕ)
      (stats : MovieWithStats),
      getMovieWithStats ms rs mid = .ok stats →
      stats.reviews = rs.filter (fun r => r.movieId == mid)
      ∧ stats.reviewCount = (rs.filter (fun r => r.movieId == mid)).length
      ∧ stats.averageRating
          = specAverageRating
              ((rs.filter (fun r => r.movieId == mid)).map (fun r => r.rating)) := by
    intro ms rs mid stats h
    unfold getMovieWithStats at h
    rcases hfind : ms.find? (fun m => m.id == mid) with _ | m
    · simp only [hfind] at h
      exact absurd h (by simp)
    · simp only [hfind] at h
      have hs := Except.ok.inj h
      subst hs
      refine ⟨rfl, rfl, ?_⟩
      show (if 0 < (rs.filter (fun r => r.movieId == mid)).length then
          toFixed1 (((rs.filter (fun r => r.movieId == mid)).foldl
              (fun sum r => sum + (r.rating : ℚ)) 0) /
            ((rs.filter (fun r => r.movieId == mid)).length : ℚ))
        else 0) = _
      by_cases hne : rs.filter (fun r => r.movieId == mid) = []
      · rw [hne]
        simp [specAverageRating]
      · rw [if_pos (List.length_pos.mpr hne)]
        rw [specAverageRating,
          if_neg (by simp [hne] :
            ¬ ((rs.filter (fun r => r.movieId == mid)).map (fun r => r.rating)) = [])]
        rw [foldl_add_eq_sum (fun r => (r.rating : ℚ))
          (rs.filter (fun r => r.movieId == mid)) 0, zero_add]
        rw [List.map_map, List.length_map]
        rfl
  have hround : round ((14 : ℚ) / 3 * 10) = 47 := by
    rw [round_eq, show (14 : ℚ) / 3 * 10 + 1 / 2 = 283 / 6 by norm_num,
      Int.floor_eq_iff]
    norm_num
  refine ⟨key, ?_, rfl⟩
  obtain ⟨stats, hok⟩ : ∃ s, getMovieWithStats sampleMovies
      [⟨1, 1, "a", "A", 5, "x", 1, 1⟩, ⟨2, 1, "b", "B", 4, "y", 2, 2⟩,
       ⟨3, 1, "c", "C", 5, "z", 3, 3⟩] 1 = .ok s := ⟨_, rfl⟩
  obtain ⟨_, hcnt, havg⟩ := key _ _ _ _ hok
  rw [hok]
  show Except.ok (stats.reviewCount, stats.averageRating) = .ok (3, 47 / 10)
  rw [hcnt, havg]
  show Except.ok (3, specAverageRating [5, 4, 5]) = .ok (3, 47 / 10)
  have : specAverageRating [5, 4, 5] = 47 / 10 := by
    rw [specAverageRating, if_neg (by simp)]
    rw [toFixed1, show ((([5, 4, 5] : List ℤ).map (Int.cast : ℤ → ℚ)).sum /
        (([5, 4, 5] : List ℤ).length : ℚ)) = (14 : ℚ) / 3 by norm_num]
    rw [hround]
    norm_num
  rw [this]

/-- Witness for `movie_stats_spec`: the statistics of movie 1 over a
store whose matching reviews are rated `[5, 4, 5]` report a count of `3`
and the spec aggregate of `[5, 4, 5]`. -/
theorem movie_stats_spec_witness :
    ∃ stats, getMovieWithStats sampleMovies
        [⟨1, 1, "a", "A", 5, "x", 1, 1⟩, ⟨2, 1, "b", "B", 4, "y", 2, 2⟩,
         ⟨3, 1, "c", "C", 5, "z", 3, 3⟩] 1 = .ok stats
      ∧ stats.reviewCount = 3
      ∧ stats.averageRating = specAverageRating [5, 4, 5] := by
  obtain ⟨stats, hok⟩ : ∃ s, getMovieWithStats sampleMovies
      [⟨1, 1, "a", "A", 5, "x", 1, 1⟩, ⟨2, 1, "b", "B", 4, "y", 2, 2⟩,
       ⟨3, 1, "c", "C", 5, "z", 3, 3⟩] 1 = .ok s := ⟨_, rfl⟩
  obtain ⟨_, hcnt, havg⟩ := movie_stats_spec.1 _ _ _ _ hok
  exact ⟨stats, hok, by rw [hcnt]; rfl, by rw [havg]; rfl⟩
